import Mathlib

/-!
Verification development for the CMS Onhold Students Tracker backend.

The definitions below are shallow embeddings of the backend source:
* field encryption helpers (`src/server.js` lines 73-113,
  `src/services/encryptionService.ts` lines 31-77),
* the student / activity data model and the CRUD route handlers
  (`src/server.js` lines 172-728),
* the reminder cron endpoint with retrying mail dispatch and the
  bulk reminder-date advance (`src/unnamed/part_003` lines 259-416).

External library behaviour (the AES-256-GCM cipher core, MongoDB, the mail
transport, the system clock) is modelled by explicit executable functions or
by parameters, as noted at each definition.
-/

namespace CMS

/-!
## Crypto utility

`encryptText` / `decryptText` translate the helpers of `src/server.js`
(lines 73-113).  The AES-256-GCM cipher core (`crypto.createCipheriv`,
`cipher.update`/`final`, `getAuthTag`, and their decryption counterparts) is
external library code; it is modelled by an executable invertible encoding:
the code point of each character is rendered as eight hex digits, and the GCM
authentication tag is modelled as a keyed checksum over key, iv and
ciphertext rendered as 32 hex digits.  The envelope layout
`iv:authTag:ciphertext`, the empty-input short-circuit, the three-segment
parse check, and the return-the-input-on-any-failure behaviour are translated
directly from the source.
-/

/-- One lowercase hex digit for a value `m < 16` (0-9, a-f). -/
def hexDigit (m : Nat) : Char :=
  if m < 10 then Char.ofNat (48 + m) else Char.ofNat (87 + m)

/-- Numeric value of a lowercase hex digit. -/
def hexDigitVal (c : Char) : Nat :=
  if 97 ≤ c.toNat then c.toNat - 87 else c.toNat - 48

/-- Is `c` a lowercase hex digit? -/
def isHexCh (c : Char) : Bool :=
  (Nat.ble 48 c.toNat && Nat.ble c.toNat 57) ||
    (Nat.ble 97 c.toNat && Nat.ble c.toNat 102)

/-- Fixed-width little-endian hex rendering of a natural number. -/
def toHexLE : Nat → Nat → List Char
  | 0, _ => []
  | w + 1, n => hexDigit (n % 16) :: toHexLE w (n / 16)

/-- Value of a little-endian hex digit list. -/
def hexValLE : List Char → Nat
  | [] => 0
  | c :: cs => hexDigitVal c + 16 * hexValLE cs

/-- Model of the cipher core on the plaintext side: each character becomes
eight hex digits (code points are below `16 ^ 8`). -/
def encodeChars : List Char → List Char
  | [] => []
  | c :: cs => toHexLE 8 c.toNat ++ encodeChars cs

/-- Inverse of `encodeChars`; fails on input that is not a sequence of
8-hex-digit groups (the model of a cipher/parse error). -/
def decodeChars : List Char → Option (List Char)
  | [] => some []
  | c0 :: c1 :: c2 :: c3 :: c4 :: c5 :: c6 :: c7 :: rest =>
    if (isHexCh c0 && isHexCh c1 && isHexCh c2 && isHexCh c3 &&
        isHexCh c4 && isHexCh c5 && isHexCh c6 && isHexCh c7) then
      match decodeChars rest with
      | some cs => some (Char.ofNat (hexValLE [c0, c1, c2, c3, c4, c5, c6, c7]) :: cs)
      | none => none
    else none
  | _ => none

/-- Model of the GCM authentication tag: a keyed checksum of key material,
iv and ciphertext. -/
def mixChars (l : List Char) : Nat :=
  l.foldl (fun a c => a * 131 + c.toNat + 1) 7

/-- The 32-hex-digit authentication tag of the model cipher. -/
def authTagChars (key iv ct : List Char) : List Char :=
  toHexLE 32 (mixChars (key ++ iv ++ ct))

/-- JavaScript `encryptedData.split(':')` on a character list. -/
def splitColon : List Char → List (List Char)
  | [] => [[]]
  | c :: cs =>
    match splitColon cs with
    | [] => [[c]]
    | h :: t => if c = ':' then [] :: h :: t else (c :: h) :: t

/-- `encryptText` of `src/server.js` lines 73-89: empty input maps to the
empty string, otherwise the envelope `iv:authTag:ciphertext` is produced.
The random 16-byte iv (crypto.randomBytes(16), hex-rendered) is modelled
by the `ivn` parameter rendered as 32 hex digits. -/
def encryptText (key : String) (ivn : Nat) (text : String) : String :=
  if text.data.isEmpty then "" else
    let iv := toHexLE 32 ivn
    let ct := encodeChars text.data
    String.mk (iv ++ ':' :: (authTagChars key.data iv ct ++ ':' :: ct))

/-- `decryptText` of `src/server.js` lines 92-113: empty input maps to the empty string;
input that does not split into exactly three colon-separated segments is
returned unchanged; a failed tag check or undecodable ciphertext (a thrown
and caught exception in the source) also returns the input unchanged. -/
def decryptText (key : String) (encryptedData : String) : String :=
  if encryptedData.data.isEmpty then "" else
    match splitColon encryptedData.data with
    | [iv, tag, ct] =>
      if tag = authTagChars key.data iv ct then
        match decodeChars ct with
        | some plain => String.mk plain
        | none => encryptedData
      else encryptedData
    | _ => encryptedData

/-! ### Crypto lemmas -/

theorem hexDigitVal_hexDigit : ∀ m < 16, hexDigitVal (hexDigit m) = m := by decide

theorem isHexCh_hexDigit : ∀ m < 16, isHexCh (hexDigit m) = true := by decide

theorem hexDigit_ne_colon : ∀ m < 16, hexDigit m ≠ ':' := by decide

theorem hexValLE_toHexLE : ∀ (w n : Nat), n < 16 ^ w → hexValLE (toHexLE w n) = n := by
  intro w
  induction w with
  | zero =>
    intro n h
    have hn : n = 0 := Nat.lt_one_iff.mp (by simpa using h)
    simp [hn, toHexLE, hexValLE]
  | succ w ih =>
    intro n h
    have hdiv : n / 16 < 16 ^ w := by
      have h16 : (0 : Nat) < 16 := by norm_num
      rw [Nat.div_lt_iff_lt_mul h16]
      calc n < 16 ^ (w + 1) := h
        _ = 16 ^ w * 16 := by rw [pow_succ]
    have hmod : n % 16 < 16 := Nat.mod_lt _ (by norm_num)
    simp only [toHexLE, hexValLE, ih (n / 16) hdiv,
      hexDigitVal_hexDigit (n % 16) hmod]
    exact Nat.mod_add_div n 16

theorem mem_toHexLE_isHex : ∀ (w n : Nat) (c : Char), c ∈ toHexLE w n → isHexCh c = true := by
  intro w
  induction w with
  | zero => intro n c hc; simp [toHexLE] at hc
  | succ w ih =>
    intro n c hc
    simp only [toHexLE, List.mem_cons] at hc
    rcases hc with hc | hc
    · exact hc ▸ isHexCh_hexDigit (n % 16) (Nat.mod_lt _ (by norm_num))
    · exact ih (n / 16) c hc

theorem colon_not_mem_toHexLE (w n : Nat) : ':' ∉ toHexLE w n := by
  intro h
  have := mem_toHexLE_isHex w n ':' h
  simp [isHexCh] at this

theorem colon_not_mem_encodeChars : ∀ l : List Char, ':' ∉ encodeChars l := by
  intro l
  induction l with
  | nil => simp [encodeChars]
  | cons c cs ih =>
    simp only [encodeChars, List.mem_append]
    rintro (h | h)
    · exact colon_not_mem_toHexLE 8 c.toNat h
    · exact ih h

theorem char_toNat_lt (c : Char) : c.toNat < 16 ^ 8 := by
  have h : c.val.toNat < 2 ^ 32 := c.val.toBitVec.isLt
  have : (16 : Nat) ^ 8 = 2 ^ 32 := by norm_num
  rw [this]
  exact h

theorem decodeChars_encodeChars : ∀ l : List Char, decodeChars (encodeChars l) = some l := by
  intro l
  induction l with
  | nil => simp [encodeChars, decodeChars]
  | cons c cs ih =>
    have hmodlt : ∀ k : Nat, k % 16 < 16 := fun k => Nat.mod_lt _ (by norm_num)
    have hval : hexValLE (toHexLE 8 c.toNat) = c.toNat :=
      hexValLE_toHexLE 8 c.toNat (char_toNat_lt c)
    simp only [toHexLE, hexValLE, Nat.mul_zero, Nat.add_zero] at hval
    simp [encodeChars, toHexLE, decodeChars, isHexCh_hexDigit _ (hmodlt _), ih, hexValLE,
      hval, Char.ofNat_toNat]

theorem splitColon_ne_nil : ∀ l : List Char, splitColon l ≠ [] := by
  intro l
  cases l with
  | nil => simp [splitColon]
  | cons c cs =>
    simp only [splitColon]
    cases h : splitColon cs with
    | nil => simp
    | cons hd tl =>
      by_cases hc : c = ':' <;> simp [hc]

theorem splitColon_no_colon : ∀ a : List Char, ':' ∉ a → splitColon a = [a] := by
  intro a
  induction a with
  | nil => intro _; rfl
  | cons c cs ih =>
    intro h
    have hc : c ≠ ':' := fun hcc => h (hcc ▸ List.mem_cons_self c cs)
    have hcs : ':' ∉ cs := fun hm => h (List.mem_cons_of_mem c hm)
    simp only [splitColon, ih hcs]
    simp [hc]

theorem splitColon_append_colon :
    ∀ (a r : List Char), ':' ∉ a → splitColon (a ++ ':' :: r) = a :: splitColon r := by
  intro a
  induction a with
  | nil =>
    intro r _
    simp only [List.nil_append, splitColon]
    cases h : splitColon r with
    | nil => exact absurd h (splitColon_ne_nil r)
    | cons hd tl => simp
  | cons c cs ih =>
    intro r h
    have hc : c ≠ ':' := fun hcc => h (hcc ▸ List.mem_cons_self c cs)
    have hcs : ':' ∉ cs := fun hm => h (List.mem_cons_of_mem c hm)
    rw [List.cons_append]
    simp only [splitColon]
    rw [ih r hcs]
    simp [hc]

theorem string_mk_data (s : String) : String.mk s.data = s := by
  cases s
  rfl

theorem string_eq_empty_of_data_nil (s : String) (h : s.data = []) : s = "" :=
  String.ext (by rw [h])

/-- Claim C3: for every non-empty string `x`, `decryptText (encryptText x) = x`
(for any key and any iv draw), while the empty string produces no envelope:
`encryptText "" = ""` and `decryptText "" = ""`. -/
theorem claim_c3_crypto_roundtrip (key : String) (ivn : Nat) (x : String) :
    (x ≠ "" → decryptText key (encryptText key ivn x) = x) ∧
      encryptText key ivn "" = "" ∧ decryptText key "" = "" := by
  refine ⟨?_, by simp [encryptText], by simp [decryptText]⟩
  intro hx
  have hdata : ¬ x.data.isEmpty = true := by
    intro he
    exact hx (string_eq_empty_of_data_nil x (List.isEmpty_iff.mp he))
  rw [encryptText, if_neg hdata]
  set iv := toHexLE 32 ivn with hiv
  set ct := encodeChars x.data with hct
  set tg := authTagChars key.data iv ct with htg
  have hsplit : splitColon (iv ++ ':' :: (tg ++ ':' :: ct)) = [iv, tg, ct] := by
    rw [splitColon_append_colon iv _ (colon_not_mem_toHexLE 32 ivn),
      splitColon_append_colon tg _ (by rw [htg]; exact colon_not_mem_toHexLE 32 _),
      splitColon_no_colon ct (colon_not_mem_encodeChars x.data)]
  have hne : ((iv ++ ':' :: (tg ++ ':' :: ct)) : List Char).isEmpty = false := by
    cases iv <;> simp
  rw [decryptText]
  simp only [hne, Bool.false_eq_true, if_false, hsplit]
  simp only [if_true, hct, decodeChars_encodeChars, string_mk_data]

/-- Witness for claim C3 at a concrete non-empty input. -/
theorem claim_c3_crypto_roundtrip_witness :
    ("secret" : String) ≠ "" ∧
      decryptText "k0" (encryptText "k0" 77 "secret") = "secret" :=
  ⟨by decide, (claim_c3_crypto_roundtrip "k0" 77 "secret").1 (by decide)⟩

/-- Claim C4: on any input string that does not split into exactly three
colon-separated segments (legacy plaintext, 1-part or 2-part strings),
`decryptText` returns the input unchanged; being a total function of the
model, it never raises. -/
theorem claim_c4_decrypt_malformed_passthrough (key s : String)
    (h : (splitColon s.data).length ≠ 3) : decryptText key s = s := by
  by_cases he : s.data.isEmpty = true
  · have hs : s = "" := string_eq_empty_of_data_nil s (List.isEmpty_iff.mp he)
    rw [hs]
    simp [decryptText]
  · rw [decryptText, if_neg he]
    rcases hsp : splitColon s.data with _ | ⟨a, _ | ⟨b, _ | ⟨c, _ | ⟨d, t⟩⟩⟩⟩
    · rfl
    · rfl
    · rfl
    · exact absurd (by rw [hsp]; rfl) h
    · rfl

/-- Witness for claim C4 at a concrete 1-segment input. -/
theorem claim_c4_decrypt_malformed_passthrough_witness :
    (splitColon (String.data "legacy plain value")).length ≠ 3 ∧
      decryptText "k1" "legacy plain value" = "legacy plain value" :=
  ⟨by decide, claim_c4_decrypt_malformed_passthrough "k1" _ (by decide)⟩

/-!
## Data model

`StudentRec` models a stored document of the `Student` Mongoose model
(`src/server.js` lines 172-190, identical schema in `src/unnamed/part_003`
lines 83-101).  Schema `String` fields are `String` (a missing field is the
empty string), except `reminderDate` and `status`, whose absence is
observable in the reminder selection query and is therefore an `Option`.
`mongoId` models the storage-assigned `_id`, `createdAt` the insertion
timestamp.  Field defaults only shorten literals in examples.
-/

structure StudentRec where
  mongoId : Nat := 0
  id : String := ""
  initiatedDate : String := ""
  studentName : String := ""
  phoneNumber : String := ""
  registeredMailId : String := ""
  category : String := ""
  heldSchoolSection : String := ""
  changedToSchoolSection : String := ""
  reminderDate : Option String := none
  initiatedBy : String := ""
  team : String := ""
  reasonToHold : String := ""
  followUpComments : String := ""
  status : Option String := none
  createdByEmail : String := ""
  stopReminders : Bool := false
  createdAt : Nat := 0
  deriving Repr, DecidableEq

/-- A request body for `POST /api/students` or `PUT /api/students/:id`.
A field that is `none` is absent from the JSON body (Mongoose drops
`undefined` values from the resulting `$set`).  The UI always sends `id`. -/
structure StudentInput where
  id : String := ""
  initiatedDate : Option String := none
  studentName : Option String := none
  phoneNumber : Option String := none
  registeredMailId : Option String := none
  category : Option String := none
  heldSchoolSection : Option String := none
  changedToSchoolSection : Option String := none
  reminderDate : Option String := none
  initiatedBy : Option String := none
  team : Option String := none
  reasonToHold : Option String := none
  followUpComments : Option String := none
  status : Option String := none
  createdByEmail : Option String := none
  stopReminders : Option Bool := none
  deriving Repr, DecidableEq

/-- The JS truthiness guard on a sensitive body field:
`req.body.f ? encryptText(req.body.f) : req.body.f` — a non-empty value is
encrypted, a falsy one is passed through. -/
def encryptIfTruthy (key : String) (ivn : Nat) (v : Option String) : Option String :=
  v.map (fun s => if s = "" then s else encryptText key ivn s)

/-- Body preparation of `POST /api/students` (`src/server.js` lines
627-634): the two note fields fall back to the empty string when falsy, phone and mail
keep the value from the body; everything else is spread through unchanged.
`oid` models the storage-assigned `_id`, `now` the clock. -/
def preparedCreateDoc (key : String) (ivn : Nat) (now oid : Nat)
    (body : StudentInput) : StudentRec :=
  { mongoId := oid
    id := body.id
    initiatedDate := body.initiatedDate.getD ""
    studentName := body.studentName.getD ""
    phoneNumber := match body.phoneNumber with
      | some s => if s = "" then s else encryptText key ivn s
      | none => ""
    registeredMailId := match body.registeredMailId with
      | some s => if s = "" then s else encryptText key ivn s
      | none => ""
    category := body.category.getD ""
    heldSchoolSection := body.heldSchoolSection.getD ""
    changedToSchoolSection := body.changedToSchoolSection.getD ""
    reminderDate := body.reminderDate
    initiatedBy := body.initiatedBy.getD ""
    team := body.team.getD ""
    reasonToHold := match body.reasonToHold with
      | some s => if s = "" then "" else encryptText key ivn s
      | none => ""
    followUpComments := match body.followUpComments with
      | some s => if s = "" then "" else encryptText key ivn s
      | none => ""
    status := body.status
    createdByEmail := body.createdByEmail.getD ""
    stopReminders := body.stopReminders.getD false
    createdAt := now }

/-- The response-side decryption applied by the student routes
(`src/server.js` lines 602-608, 640-644, 677-681): each truthy sensitive
field is decrypted before the document is returned. -/
def decryptStudentFields (key : String) (d : StudentRec) : StudentRec :=
  { d with
    reasonToHold := if d.reasonToHold = "" then d.reasonToHold
      else decryptText key d.reasonToHold
    followUpComments := if d.followUpComments = "" then d.followUpComments
      else decryptText key d.followUpComments
    phoneNumber := if d.phoneNumber = "" then d.phoneNumber
      else decryptText key d.phoneNumber
    registeredMailId := if d.registeredMailId = "" then d.registeredMailId
      else decryptText key d.registeredMailId }

/-- `POST /api/students` (`src/server.js` lines 619-651): reject a duplicate
application-level `id` with a 400 error before writing; otherwise append the
encrypted document and answer with its decrypted form. -/
def createStudent (key : String) (ivn : Nat) (now oid : Nat)
    (store : List StudentRec) (body : StudentInput) :
    Except String StudentRec × List StudentRec :=
  match store.find? (fun d => d.id == body.id) with
  | some _ => (Except.error "Student ID already exists", store)
  | none =>
    let doc := preparedCreateDoc key ivn now oid body
    (Except.ok (decryptStudentFields key doc), store ++ [doc])

/-- The `$set` payload of `PUT /api/students/:id` (`src/server.js` lines
658-664): the whole request body, with truthy sensitive fields
re-encrypted.  Note that `createdByEmail` is spread through untouched. -/
def preparedUpdateData (key : String) (ivn : Nat) (body : StudentInput) : StudentInput :=
  { body with
    reasonToHold := encryptIfTruthy key ivn body.reasonToHold
    followUpComments := encryptIfTruthy key ivn body.followUpComments
    phoneNumber := encryptIfTruthy key ivn body.phoneNumber
    registeredMailId := encryptIfTruthy key ivn body.registeredMailId }

/-- Mongoose `findOneAndUpdate` with a plain object: a `$set` of every
present body field onto the stored document. -/
def applySet (d : StudentRec) (u : StudentInput) : StudentRec :=
  { d with
    id := u.id
    initiatedDate := u.initiatedDate.getD d.initiatedDate
    studentName := u.studentName.getD d.studentName
    phoneNumber := u.phoneNumber.getD d.phoneNumber
    registeredMailId := u.registeredMailId.getD d.registeredMailId
    category := u.category.getD d.category
    heldSchoolSection := u.heldSchoolSection.getD d.heldSchoolSection
    changedToSchoolSection := u.changedToSchoolSection.getD d.changedToSchoolSection
    reminderDate := match u.reminderDate with
      | some v => some v
      | none => d.reminderDate
    initiatedBy := u.initiatedBy.getD d.initiatedBy
    team := u.team.getD d.team
    reasonToHold := u.reasonToHold.getD d.reasonToHold
    followUpComments := u.followUpComments.getD d.followUpComments
    status := match u.status with
      | some v => some v
      | none => d.status
    createdByEmail := u.createdByEmail.getD d.createdByEmail
    stopReminders := u.stopReminders.getD d.stopReminders }

/-- Replace the first document matching the application id (the document
`findOneAndUpdate` operated on). -/
def replaceFirst : List StudentRec → String → StudentRec → List StudentRec
  | [], _, _ => []
  | d :: ds, pid, newDoc =>
    if d.id == pid then newDoc :: ds else d :: replaceFirst ds pid newDoc

/-- `PUT /api/students/:id` (`src/server.js` lines 654-688): 404 when no
document has the id; otherwise `$set` the prepared body onto the stored
document and answer with its decrypted form. -/
def updateStudent (key : String) (ivn : Nat) (store : List StudentRec)
    (pid : String) (body : StudentInput) :
    Except String StudentRec × List StudentRec :=
  let updateData := preparedUpdateData key ivn body
  match store.find? (fun d => d.id == pid) with
  | none => (Except.error "Student not found", store)
  | some d =>
    let newDoc := applySet d updateData
    (Except.ok (decryptStudentFields key newDoc), replaceFirst store pid newDoc)

/-- Claim C5: creating a record whose application id already exists fails
with the duplicate-id error (HTTP 400 with message) and leaves the store
unchanged — same record count, every field of every record identical. -/
theorem claim_c5_duplicate_create_rejected (key : String) (ivn now oid : Nat)
    (store : List StudentRec) (body : StudentInput)
    (h : ∃ d ∈ store, d.id = body.id) :
    createStudent key ivn now oid store body =
      (Except.error "Student ID already exists", store) := by
  obtain ⟨d, hd, hid⟩ := h
  have hs : (store.find? (fun d => d.id == body.id)).isSome := by
    rw [List.find?_isSome]
    exact ⟨d, hd, by simp [hid]⟩
  rw [createStudent]
  rcases hf : store.find? (fun d => d.id == body.id) with _ | e
  · rw [hf] at hs
    simp at hs
  · rw [hf]

/-- Witness for claim C5: a concrete duplicate create is rejected and the
store is untouched. -/
theorem claim_c5_duplicate_create_rejected_witness :
    (∃ d ∈ [({ id := "S1", createdByEmail := "a@lmes.in" } : StudentRec)],
        d.id = (({ id := "S1" } : StudentInput)).id) ∧
      createStudent "k" 3 5 7 [{ id := "S1", createdByEmail := "a@lmes.in" }]
          { id := "S1" } =
        (Except.error "Student ID already exists",
          [{ id := "S1", createdByEmail := "a@lmes.in" }]) :=
  ⟨by decide, claim_c5_duplicate_create_rejected "k" 3 5 7 _ _ (by decide)⟩

/-- Claim C2 counterexample: at this concrete input the update endpoint
overwrites `createdByEmail` with the value supplied in the body, so the
claimed unconditional preservation is false — both the returned record and
the stored document show the new value. -/
theorem claim_c2_counterexample :
    ((updateStudent "k" 0 [{ id := "S1", createdByEmail := "orig@lmes.in" }] "S1"
        { id := "S1", createdByEmail := some "other@lmes.in" }).fst.map
          (fun u => u.createdByEmail) = Except.ok "other@lmes.in") ∧
      ((updateStudent "k" 0 [{ id := "S1", createdByEmail := "orig@lmes.in" }] "S1"
        { id := "S1", createdByEmail := some "other@lmes.in" }).snd.map
          (fun u => u.createdByEmail) = ["other@lmes.in"]) ∧
      "other@lmes.in" ≠ "orig@lmes.in" := by
  refine ⟨rfl, rfl, by decide⟩

/-- Claim C2 (amended): the update endpoint merges every supplied body
field, so `createdByEmail` is preserved only when the request body omits
it; a supplied value overwrites the stored creator identity, and the
response decryption never touches `createdByEmail`. -/
theorem claim_c2_update_merges_createdByEmail (key : String) (ivn : Nat)
    (store : List StudentRec) (pid : String) (body : StudentInput) (d : StudentRec)
    (hf : store.find? (fun x => x.id == pid) = some d) :
    (updateStudent key ivn store pid body).fst =
        Except.ok (decryptStudentFields key (applySet d (preparedUpdateData key ivn body))) ∧
      (body.createdByEmail = none →
        (applySet d (preparedUpdateData key ivn body)).createdByEmail = d.createdByEmail) ∧
      (∀ v, body.createdByEmail = some v →
        (applySet d (preparedUpdateData key ivn body)).createdByEmail = v) ∧
      (∀ x : StudentRec, (decryptStudentFields key x).createdByEmail = x.createdByEmail) := by
  refine ⟨?_, ?_, ?_, fun _ => rfl⟩
  · rw [updateStudent, hf]
  · intro h
    simp [applySet, preparedUpdateData, h]
  · intro v h
    simp [applySet, preparedUpdateData, h]

/-- Witness for claim C2 (amended) at a concrete store and body. -/
theorem claim_c2_update_merges_createdByEmail_witness :
    ([({ id := "S2", createdByEmail := "keep@lmes.in" } : StudentRec)].find?
        (fun x => x.id == "S2") = some { id := "S2", createdByEmail := "keep@lmes.in" }) ∧
      (applySet { id := "S2", createdByEmail := "keep@lmes.in" }
          (preparedUpdateData "k" 0 { id := "S2" })).createdByEmail = "keep@lmes.in" :=
  ⟨by decide,
    (claim_c2_update_merges_createdByEmail "k" 0
      [{ id := "S2", createdByEmail := "keep@lmes.in" }] "S2" { id := "S2" }
      { id := "S2", createdByEmail := "keep@lmes.in" } (by decide)).2.1 rfl⟩

/-!
## Reminder pipeline

Embedding of the cron endpoint `GET /api/cron/send-reminders` of
`src/unnamed/part_003` (lines 259-416): selection query, per-agent grouping,
retrying mail dispatch, audit logging and the bulk reminder-date advance.
External effects are parameters: the mail transport is an oracle giving the
outcome of each attempt, MongoDB `updateMany` failure is an optional error,
and the clock feeds date strings and activity timestamps.
-/

/-- `Status.ON_HOLD` of `types.ts`. -/
def statusOnHold : String := "On hold"

/-- `Status.PENDING` of `types.ts`. -/
def statusPending : String := "Pending"

/-- Lexicographic at-most on character lists by code point: the comparison
MongoDB applies to the `yyyy-mm-dd` date strings in the `$lte` filter. -/
def lexLeb : List Char → List Char → Bool
  | [], _ => true
  | _ :: _, [] => false
  | c :: cs, d :: ds =>
    if c.toNat < d.toNat then true
    else if d.toNat < c.toNat then false
    else lexLeb cs ds

/-- String at-most, executably. -/
def strLeb (a b : String) : Bool :=
  lexLeb a.data b.data

theorem char_lt_iff_toNat {c d : Char} : c < d ↔ c.toNat < d.toNat := by
  rw [Char.lt_iff_val_lt_val, UInt32.lt_def, BitVec.lt_def]
  exact Iff.rfl

theorem lexLeb_iff_not_lt :
    ∀ as bs : List Char, lexLeb as bs = true ↔ ¬ List.lt bs as := by
  intro as
  induction as with
  | nil =>
    intro bs
    simp only [lexLeb]
    exact iff_of_true trivial (fun h => nomatch h)
  | cons a as ih =>
    intro bs
    cases bs with
    | nil =>
      simp only [lexLeb]
      exact iff_of_false (by simp) (not_not_intro (List.lt.nil a as))
    | cons b bs =>
      simp only [lexLeb]
      by_cases hab : a.toNat < b.toNat
      · rw [if_pos hab]
        refine iff_of_true rfl ?_
        intro h
        cases h with
        | head _ _ hlt => exact absurd (char_lt_iff_toNat.mp hlt) (by omega)
        | tail _ h2 _ => exact h2 (char_lt_iff_toNat.mpr hab)
      · by_cases hba : b.toNat < a.toNat
        · rw [if_neg hab, if_pos hba]
          exact iff_of_false (by simp)
            (not_not_intro (List.lt.head _ _ (char_lt_iff_toNat.mpr hba)))
        · rw [if_neg hab, if_neg hba, ih bs]
          constructor
          · intro h hlt
            cases hlt with
            | head _ _ hlt2 => exact hba (char_lt_iff_toNat.mp hlt2)
            | tail _ _ hlt2 => exact h hlt2
          · intro h hlt
            exact h (List.lt.tail (fun hc => hba (char_lt_iff_toNat.mp hc))
              (fun hc => hab (char_lt_iff_toNat.mp hc)) hlt)

/-- The executable comparison agrees with the `≤` order on `String`. -/
theorem strLeb_iff_le (a b : String) : strLeb a b = true ↔ a ≤ b := by
  rw [String.le_iff_toList_le, ← not_lt]
  exact (lexLeb_iff_not_lt a.data b.data).trans
    (not_congr (List.lt_iff_lex_lt b.data a.data))

/-- The eligibility predicate of the cron selection query (part_003 lines
309-313): `stopReminders` not true, `reminderDate` at most today (a document
without the field never matches the string `$lte`), and status `On hold` or
`Pending`. -/
def isDue (todayStr : String) (s : StudentRec) : Bool :=
  !s.stopReminders &&
    (match s.reminderDate with
      | some dt => strLeb dt todayStr
      | none => false) &&
    (s.status == some statusOnHold || s.status == some statusPending)

/-- `Student.find` with the reminder filter: the due records in store
order. -/
def selectDue (todayStr : String) (store : List StudentRec) : List StudentRec :=
  store.filter (isDue todayStr)

/-- Owner key used for grouping (part_003 line 325):
s.initiatedBy, falling back to the sentinel Unassigned when blank. -/
def agentKey (s : StudentRec) : String :=
  if s.initiatedBy = "" then "Unassigned" else s.initiatedBy

/-- One step of building `tasksByAgent`: append the record to the group of its agent if the key already exists, else add a new group at the end (JS object
string keys enumerate in insertion order). -/
def insertTask (acc : List (String × List StudentRec)) (s : StudentRec) :
    List (String × List StudentRec) :=
  match acc with
  | [] => [(agentKey s, [s])]
  | (k, g) :: rest =>
    if k = agentKey s then (k, g ++ [s]) :: rest else (k, g) :: insertTask rest s

/-- `tasksByAgent` (part_003 lines 323-328). -/
def groupByAgent (students : List StudentRec) : List (String × List StudentRec) :=
  students.foldl insertTask []

/-- Accumulate the agent key of a record if it is new. -/
def addKey (ks : List String) (s : StudentRec) : List String :=
  if agentKey s ∈ ks then ks else ks ++ [agentKey s]

/-- The distinct agent keys of a record sequence, in first-seen order
(`Object.keys(tasksByAgent)`). -/
def agentKeys (students : List StudentRec) : List String :=
  students.foldl addKey []

/-- Result of `sendEmailWithRetry`: the outcome, the number of attempts
actually made, and the backoff delays (in seconds) slept between
attempts. -/
structure RetryOutcome where
  success : Bool
  attempts : Nat
  delays : List Nat
  deriving Repr, DecidableEq

/-- The retry loop of `sendEmailWithRetry` (part_003 lines 259-274), with
the attempt counter and remaining iterations explicit; the transport is the
oracle `attemptOk`.  A final failed attempt returns failure (never throws);
after a non-final failed attempt `a` the loop sleeps `2 ^ (a - 1)`
seconds. -/
def retryGo (attemptOk : Nat → Bool) : Nat → Nat → RetryOutcome
  | attempt, 0 => ⟨false, attempt - 1, []⟩
  | attempt, fuel + 1 =>
    if attemptOk attempt then ⟨true, attempt, []⟩
    else if fuel = 0 then ⟨false, attempt, []⟩
    else
      let r := retryGo attemptOk (attempt + 1) fuel
      ⟨r.success, r.attempts, 2 ^ (attempt - 1) :: r.delays⟩

/-- `sendEmailWithRetry(mailOptions, maxRetries = 3)` (part_003 lines
259-274). -/
def sendEmailWithRetry (attemptOk : Nat → Bool) (maxRetries : Nat := 3) : RetryOutcome :=
  retryGo attemptOk 1 maxRetries

/-- The per-group mail of the cron dispatch (part_003 lines 360-365): the
fixed operations mailbox as recipient, the agent name and group size in the
subject.  The rendered HTML table body is not modelled — no claim concerns
its contents. -/
structure MailMsg where
  toAddr : String
  subject : String
  deriving Repr, DecidableEq

/-- `mailOptions` for one agent group (`to` is spelled `toAddr`: `to` is a
reserved token). -/
def mkMail (agentName : String) (tasks : List StudentRec) : MailMsg :=
  { toAddr := "gokul_s@lmes.in"
    subject := "[" ++ agentName ++ "] [Reminder] Automated Follow-up for "
      ++ toString tasks.length ++ " students" }

/-- The per-agent send loop (part_003 lines 354-377): one retry-bounded
send per group; successes and failures are counted independently and the
loop always continues to the next group.  Returns (sent, failed, mails). -/
def dispatchLoop (attemptOk : String → Nat → Bool) :
    List (String × List StudentRec) → Nat × Nat × List MailMsg
  | [] => (0, 0, [])
  | (agentName, tasks) :: rest =>
    let r := sendEmailWithRetry (attemptOk agentName) 3
    let acc := dispatchLoop attemptOk rest
    (if r.success then acc.1 + 1 else acc.1,
      if r.success then acc.2.1 else acc.2.1 + 1,
      mkMail agentName tasks :: acc.2.2)

/-- A document of the `Activity` model (part_003 lines 103-110). -/
structure ActivityRec where
  id : String := ""
  user : String := ""
  action : String := ""
  details : String := ""
  timestamp : String := ""
  createdAt : Nat := 0
  deriving Repr, DecidableEq

/-- Server-side `logActivity` (part_003 lines 242-256): id and timestamp are
clock renderings, the user defaults to `SYSTEM`. -/
def logActivity (now : Nat) (action details : String) : ActivityRec :=
  { id := toString now, user := "SYSTEM", action := action, details := details,
    timestamp := toString now, createdAt := now }

/-- The summary detail string (part_003 line 379). -/
def cronSummary (sent failed : Nat) : String :=
  "CRON: Reminder job finished. Sent: " ++ toString sent ++ ", Failed: "
    ++ toString failed ++ "."

/-- Detail string of the `CRON_JOB_UPDATE` entry (part_003 line 399). -/
def cronUpdateDetails (modified : Nat) : String :=
  "Updated reminderDate for " ++ toString modified ++ " students."

/-- Detail string of the `CRON_JOB_FAILED` entry written when the bulk
update errors (part_003 line 402). -/
def cronUpdateFailedDetails (errMsg : String) : String :=
  "Failed to update reminder dates: " ++ errMsg

/-- The JSON response of the cron endpoint. -/
structure CronOutcome where
  status : Nat
  message : String
  sent : Nat := 0
  failed : Nat := 0
  deriving Repr, DecidableEq

/-- `GET /api/cron/send-reminders` (part_003 lines 277-416) after the
bearer-secret check.  `todayStr` is the formatted local date, `nextStr` the
date seven days ahead as formatted by the job (`new Date()` plus 7 days,
ISO date part), `emailConfigured` whether `EMAIL_USER`/`EMAIL_CLIENT_ID`
are present, `attemptOk` the transport outcome per agent and attempt, and
`updateErr` an error thrown by `updateMany` (`none`: the bulk update
succeeds).  Returns the response, the new student store and the new
activity log. -/
def runCron (todayStr nextStr : String) (emailConfigured : Bool)
    (attemptOk : String → Nat → Bool) (updateErr : Option String) (now : Nat)
    (store : List StudentRec) (acts : List ActivityRec) :
    CronOutcome × List StudentRec × List ActivityRec :=
  let studentsToRemind := selectDue todayStr store
  if studentsToRemind.isEmpty then
    (⟨200, "No reminders to send.", 0, 0⟩, store,
      acts ++ [logActivity now "CRON_JOB" "Ran successfully, no reminders to send."])
  else if !emailConfigured then
    (⟨500, "Email service not configured on server.", 0, 0⟩, store, acts)
  else
    let tasksByAgent := groupByAgent studentsToRemind
    let res := dispatchLoop attemptOk tasksByAgent
    let sentCount := res.1
    let failedCount := res.2.1
    let acts1 := acts ++ [logActivity now "CRON_JOB" (cronSummary sentCount failedCount)]
    if 0 < sentCount then
      match updateErr with
      | some errMsg =>
        (⟨200, "Cron job completed.", sentCount, failedCount⟩, store,
          acts1 ++ [logActivity (now + 1) "CRON_JOB_FAILED" (cronUpdateFailedDetails errMsg)])
      | none =>
        let remindedStudentIds := studentsToRemind.map (fun s => s.mongoId)
        let modifiedCount := (store.filter (fun d =>
          remindedStudentIds.contains d.mongoId && !(d.reminderDate == some nextStr))).length
        let newStore := store.map (fun d =>
          if remindedStudentIds.contains d.mongoId
          then { d with reminderDate := some nextStr } else d)
        (⟨200, "Cron job completed.", sentCount, failedCount⟩, newStore,
          acts1 ++ [logActivity (now + 1) "CRON_JOB_UPDATE" (cronUpdateDetails modifiedCount)])
    else
      (⟨200, "Cron job completed.", sentCount, failedCount⟩, store, acts1)

/-- The sent count of a batch as produced by the dispatch stage. -/
def cronSent (todayStr : String) (attemptOk : String → Nat → Bool)
    (store : List StudentRec) : Nat :=
  (dispatchLoop attemptOk (groupByAgent (selectDue todayStr store))).1

/-- The failed count of a batch as produced by the dispatch stage. -/
def cronFailed (todayStr : String) (attemptOk : String → Nat → Bool)
    (store : List StudentRec) : Nat :=
  (dispatchLoop attemptOk (groupByAgent (selectDue todayStr store))).2.1

/-- `GET /api/activities` (`src/server.js` lines 706-715):
`Activity.find().sort({ createdAt: -1 }).limit(1000)`. -/
def getActivities (log : List ActivityRec) : List ActivityRec :=
  (log.mergeSort (fun a b => Nat.ble b.createdAt a.createdAt)).take 1000

/-! ### Selection (claim C6) -/

theorem isDue_iff (todayStr : String) (s : StudentRec) :
    isDue todayStr s = true ↔
      s.stopReminders = false ∧
        (∃ dt, s.reminderDate = some dt ∧ dt ≤ todayStr) ∧
        (s.status = some statusOnHold ∨ s.status = some statusPending) := by
  unfold isDue
  cases hrd : s.reminderDate with
  | none => simp [hrd]
  | some dt => simp [hrd, and_assoc, strLeb_iff_le]

/-- Claim C6: `selectDue today` returns exactly the stored records whose
reminders are not suppressed, whose reminder date is present and at most
today, and whose status is `On hold` or `Pending`; in particular a record
with no reminder date is never selected, and suppressed or refunded records
are excluded even when overdue. -/
theorem claim_c6_selectDue_characterization (todayStr : String)
    (store : List StudentRec) (s : StudentRec) :
    (s ∈ selectDue todayStr store ↔
        s ∈ store ∧ s.stopReminders = false ∧
          (∃ dt, s.reminderDate = some dt ∧ dt ≤ todayStr) ∧
          (s.status = some statusOnHold ∨ s.status = some statusPending)) ∧
      (s.stopReminders = true → s ∉ selectDue todayStr store) ∧
      (s.reminderDate = none → s ∉ selectDue todayStr store) ∧
      (s.status = some "Refunded" → s ∉ selectDue todayStr store) := by
  have hiff : s ∈ selectDue todayStr store ↔
      s ∈ store ∧ s.stopReminders = false ∧
        (∃ dt, s.reminderDate = some dt ∧ dt ≤ todayStr) ∧
        (s.status = some statusOnHold ∨ s.status = some statusPending) := by
    rw [selectDue, List.mem_filter, isDue_iff]
  refine ⟨hiff, ?_, ?_, ?_⟩
  · intro h hm
    rcases hiff.mp hm with ⟨_, hs, _, _⟩
    rw [h] at hs
    cases hs
  · intro h hm
    rcases hiff.mp hm with ⟨_, _, ⟨dt, hdt, _⟩, _⟩
    rw [h] at hdt
    cases hdt
  · intro h hm
    rcases hiff.mp hm with ⟨_, _, _, hst | hst⟩ <;> rw [h] at hst <;>
      simp [statusOnHold, statusPending] at hst

/-- Witness for claim C6: a concrete suppressed record with a long-overdue
reminder date is not selected. -/
theorem claim_c6_selectDue_characterization_witness :
    ({ id := "W6", stopReminders := true, reminderDate := some "2020-01-01",
        status := some "On hold" } : StudentRec).stopReminders = true ∧
      ({ id := "W6", stopReminders := true, reminderDate := some "2020-01-01",
          status := some "On hold" } : StudentRec) ∉
        selectDue "2026-10-11"
          [{ id := "W6", stopReminders := true, reminderDate := some "2020-01-01",
              status := some "On hold" }] :=
  ⟨rfl,
    (claim_c6_selectDue_characterization "2026-10-11"
      [{ id := "W6", stopReminders := true, reminderDate := some "2020-01-01",
          status := some "On hold" }]
      { id := "W6", stopReminders := true, reminderDate := some "2020-01-01",
          status := some "On hold" }).2.1 rfl⟩

/-! ### Grouping (claim C7) -/

theorem mem_addKey_of_mem {ks : List String} {x : String} (s : StudentRec)
    (h : x ∈ ks) : x ∈ addKey ks s := by
  rw [addKey]
  split
  · exact h
  · exact List.mem_append_left _ h

theorem agentKey_mem_addKey (ks : List String) (s : StudentRec) :
    agentKey s ∈ addKey ks s := by
  rw [addKey]
  split
  · assumption
  · exact List.mem_append_right _ (List.mem_singleton.mpr rfl)

theorem mem_foldl_addKey_of_mem :
    ∀ (l : List StudentRec) (init : List String) (x : String),
      x ∈ init → x ∈ l.foldl addKey init := by
  intro l
  induction l with
  | nil => intro init x h; simpa using h
  | cons b l ih =>
    intro init x h
    exact ih (addKey init b) x (mem_addKey_of_mem b h)

theorem mem_agentKeys_of_mem :
    ∀ (l : List StudentRec) (init : List String) (a : StudentRec),
      a ∈ l → agentKey a ∈ l.foldl addKey init := by
  intro l
  induction l with
  | nil => intro init a h; cases h
  | cons b l ih =>
    intro init a h
    rcases List.mem_cons.mp h with rfl | h
    · exact mem_foldl_addKey_of_mem l (addKey init a) _ (agentKey_mem_addKey init a)
    · exact ih (addKey init b) a h

theorem addKey_nodup {ks : List String} (s : StudentRec) (h : ks.Nodup) :
    (addKey ks s).Nodup := by
  rw [addKey]
  split
  · exact h
  · next hn =>
    rw [List.nodup_append]
    exact ⟨h, List.nodup_singleton _, fun a ha hb => hn ((List.mem_singleton.mp hb) ▸ ha)⟩

theorem foldl_addKey_nodup :
    ∀ (l : List StudentRec) (init : List String), init.Nodup → (l.foldl addKey init).Nodup := by
  intro l
  induction l with
  | nil => intro init h; simpa using h
  | cons b l ih => intro init h; exact ih (addKey init b) (addKey_nodup b h)

theorem agentKeys_nodup (l : List StudentRec) : (agentKeys l).Nodup :=
  foldl_addKey_nodup l [] (List.nodup_nil)

theorem agentKeys_append (l : List StudentRec) (s : StudentRec) :
    agentKeys (l ++ [s]) = addKey (agentKeys l) s := by
  simp [agentKeys, List.foldl_append]

theorem groupByAgent_append (l : List StudentRec) (s : StudentRec) :
    groupByAgent (l ++ [s]) = insertTask (groupByAgent l) s := by
  simp [groupByAgent, List.foldl_append]

theorem insertTask_canonical_of_mem (f : String → List StudentRec) (s : StudentRec) :
    ∀ ks : List String, ks.Nodup → agentKey s ∈ ks →
      insertTask (ks.map (fun k => (k, f k))) s =
        ks.map (fun k => (k, if k = agentKey s then f k ++ [s] else f k)) := by
  intro ks
  induction ks with
  | nil => intro _ h; cases h
  | cons k ks ih =>
    intro hnd hmem
    rcases List.nodup_cons.mp hnd with ⟨hkn, hksnd⟩
    by_cases hk : k = agentKey s
    · have htail : ks.map (fun x => (x, if x = agentKey s then f x ++ [s] else f x)) =
          ks.map (fun x => (x, f x)) := by
        apply List.map_congr_left
        intro x hx
        have hxne : x ≠ agentKey s := fun he => hkn (by rw [hk, ← he]; exact hx)
        simp [hxne]
      simp only [List.map_cons, insertTask, if_pos hk, hk, htail]
      simp
    · have hmem' : agentKey s ∈ ks := by
        rcases List.mem_cons.mp hmem with he | h
        · exact absurd he.symm hk
        · exact h
      simp only [List.map_cons, insertTask, if_neg hk, ih hksnd hmem']

theorem insertTask_canonical_of_not_mem (f : String → List StudentRec) (s : StudentRec) :
    ∀ ks : List String, agentKey s ∉ ks →
      insertTask (ks.map (fun k => (k, f k))) s =
        ks.map (fun k => (k, f k)) ++ [(agentKey s, [s])] := by
  intro ks
  induction ks with
  | nil => intro _; rfl
  | cons k ks ih =>
    intro h
    have hk : k ≠ agentKey s := fun he => h (he ▸ List.mem_cons_self k ks)
    have hks : agentKey s ∉ ks := fun hm => h (List.mem_cons_of_mem k hm)
    simp only [List.map_cons, insertTask, if_neg hk, ih hks, List.cons_append]

/-- `tasksByAgent` is the partition of the input by agent key, with the
groups listed in first-seen key order and each group holding its records in
input order. -/
theorem groupByAgent_canonical (l : List StudentRec) :
    groupByAgent l = (agentKeys l).map (fun k => (k, l.filter (fun s => agentKey s == k))) := by
  induction l using List.reverseRecOn with
  | nil => rfl
  | append_singleton l s ih =>
    rw [groupByAgent_append, ih, agentKeys_append, addKey]
    by_cases hmem : agentKey s ∈ agentKeys l
    · rw [if_pos hmem, insertTask_canonical_of_mem _ _ _ (agentKeys_nodup l) hmem]
      apply List.map_congr_left
      intro k hk
      by_cases hks : k = agentKey s
      · simp [hks, List.filter_append]
      · have : (agentKey s == k) = false := by
          simp only [beq_eq_false_iff_ne, ne_eq]
          exact fun he => hks he.symm
        simp [hks, List.filter_append, this]
    · rw [if_neg hmem, insertTask_canonical_of_not_mem _ _ _ hmem, List.map_append]
      congr 1
      · apply List.map_congr_left
        intro k hk
        have : (agentKey s == k) = false := by
          simp only [beq_eq_false_iff_ne, ne_eq]
          exact fun he => hmem (he.symm ▸ hk)
        simp [List.filter_append, this]
      · have hfl : l.filter (fun x => agentKey x == agentKey s) = [] := by
          rw [List.filter_eq_nil_iff]
          intro a ha hbe
          exact hmem ((beq_iff_eq.mp hbe) ▸ mem_agentKeys_of_mem l [] a ha)
        simp [List.filter_append, hfl]

theorem dispatchLoop_mails (attemptOk : String → Nat → Bool) :
    ∀ gs : List (String × List StudentRec),
      (dispatchLoop attemptOk gs).2.2 = gs.map (fun g => mkMail g.1 g.2) := by
  intro gs
  induction gs with
  | nil => rfl
  | cons g rest ih =>
    cases g with
    | mk a ts => simp [dispatchLoop, ih]

/-- Claim C7: the dispatcher partitions the due records into groups by
owner key (a blank owner falls into the fixed sentinel group "Unassigned"),
in first-seen order, and performs exactly one retry-bounded send per group,
addressed to the single fixed operations mailbox with the owner name
embedded in the subject. -/
theorem claim_c7_dispatch_partition (due : List StudentRec)
    (attemptOk : String → Nat → Bool) :
    groupByAgent due =
        (agentKeys due).map (fun k => (k, due.filter (fun s => agentKey s == k))) ∧
      (∀ s ∈ due, s.initiatedBy = "" → agentKey s = "Unassigned") ∧
      (dispatchLoop attemptOk (groupByAgent due)).2.2 =
        (groupByAgent due).map (fun g => mkMail g.1 g.2) ∧
      (dispatchLoop attemptOk (groupByAgent due)).2.2.length = (agentKeys due).length ∧
      (∀ m ∈ (dispatchLoop attemptOk (groupByAgent due)).2.2,
        m.toAddr = "gokul_s@lmes.in") := by
  refine ⟨groupByAgent_canonical due, fun s _ h => by simp [agentKey, h],
    dispatchLoop_mails _ _, ?_, ?_⟩
  · rw [dispatchLoop_mails, List.length_map, groupByAgent_canonical, List.length_map]
  · intro m hm
    rw [dispatchLoop_mails] at hm
    rcases List.mem_map.mp hm with ⟨g, _, rfl⟩
    rfl

/-- Witness for claim C7: 2 records owned by Alice and 1 blank-owned record
yield exactly 2 groups and 2 sends, and a concrete dispatched mail goes to
the operations mailbox. -/
theorem claim_c7_dispatch_partition_witness :
    (groupByAgent [{ id := "A1", initiatedBy := "Alice" },
        { id := "A2", initiatedBy := "Alice" }, ({ id := "B1" } : StudentRec)]).length = 2 ∧
      (dispatchLoop (fun _ _ => true)
        (groupByAgent [{ id := "A1", initiatedBy := "Alice" },
          { id := "A2", initiatedBy := "Alice" }, ({ id := "B1" } : StudentRec)])).2.2.length = 2 ∧
      mkMail "Unassigned" [{ id := "B1" }] ∈
        (dispatchLoop (fun _ _ => true)
          (groupByAgent [{ id := "A1", initiatedBy := "Alice" },
            { id := "A2", initiatedBy := "Alice" }, ({ id := "B1" } : StudentRec)])).2.2 ∧
      (mkMail "Unassigned" [{ id := "B1" }]).toAddr = "gokul_s@lmes.in" :=
  ⟨by decide, by decide, by decide,
    (claim_c7_dispatch_partition
      [{ id := "A1", initiatedBy := "Alice" },
        { id := "A2", initiatedBy := "Alice" }, ({ id := "B1" } : StudentRec)]
      (fun _ _ => true)).2.2.2.2 (mkMail "Unassigned" [{ id := "B1" }]) (by decide)⟩

/-! ### Retry and batch isolation (claim C8) -/

/-- Closed form of the three-attempt retry loop. -/
theorem retryGo_three (ok : Nat → Bool) (a : Nat) :
    retryGo ok a 3 =
      if ok a then ⟨true, a, []⟩
      else if ok (a + 1) then ⟨true, a + 1, [2 ^ (a - 1)]⟩
      else if ok (a + 2) then ⟨true, a + 2, [2 ^ (a - 1), 2 ^ a]⟩
      else ⟨false, a + 2, [2 ^ (a - 1), 2 ^ a]⟩ := by
  show retryGo ok a (2 + 1) = _
  rw [retryGo]
  cases h1 : ok a
  · simp only [Bool.false_eq_true, if_false]
    show (if (2 : Nat) = 0 then _ else _) = _
    rw [if_neg (by norm_num)]
    show (⟨(retryGo ok (a + 1) 2).success, (retryGo ok (a + 1) 2).attempts,
        2 ^ (a - 1) :: (retryGo ok (a + 1) 2).delays⟩ : RetryOutcome) = _
    have h2eq : retryGo ok (a + 1) 2 =
        if ok (a + 1) then ⟨true, a + 1, []⟩
        else if ok (a + 2) then ⟨true, a + 2, [2 ^ a]⟩
        else ⟨false, a + 2, [2 ^ a]⟩ := by
      show retryGo ok (a + 1) (1 + 1) = _
      rw [retryGo]
      cases h2 : ok (a + 1)
      · simp only [Bool.false_eq_true, if_false]
        show (if (1 : Nat) = 0 then _ else _) = _
        rw [if_neg (by norm_num)]
        show (⟨(retryGo ok (a + 2) 1).success, (retryGo ok (a + 2) 1).attempts,
            2 ^ (a + 1 - 1) :: (retryGo ok (a + 2) 1).delays⟩ : RetryOutcome) = _
        have h1eq : retryGo ok (a + 2) 1 =
            if ok (a + 2) then ⟨true, a + 2, []⟩ else ⟨false, a + 2, []⟩ := by
          show retryGo ok (a + 2) (0 + 1) = _
          rw [retryGo]
          cases h3 : ok (a + 2) <;> simp
        rw [h1eq]
        cases h3 : ok (a + 2) <;> simp
      · simp
    rw [h2eq]
    cases h2 : ok (a + 1)
    · simp only [Bool.false_eq_true, if_false]
      cases h3 : ok (a + 2) <;> simp
    · simp
  · simp

theorem dispatchLoop_sent_count (ok : String → Nat → Bool) :
    ∀ gs : List (String × List StudentRec),
      (dispatchLoop ok gs).1 =
        (gs.filter (fun g => (sendEmailWithRetry (ok g.1) 3).success)).length := by
  intro gs
  induction gs with
  | nil => rfl
  | cons g rest ih =>
    cases g with
    | mk a ts =>
      cases h : (sendEmailWithRetry (ok a) 3).success <;>
        simp [dispatchLoop, h, ih, List.filter_cons]

theorem dispatchLoop_failed_count (ok : String → Nat → Bool) :
    ∀ gs : List (String × List StudentRec),
      (dispatchLoop ok gs).2.1 =
        (gs.filter (fun g => !(sendEmailWithRetry (ok g.1) 3).success)).length := by
  intro gs
  induction gs with
  | nil => rfl
  | cons g rest ih =>
    cases g with
    | mk a ts =>
      cases h : (sendEmailWithRetry (ok a) 3).success <;>
        simp [dispatchLoop, h, ih, List.filter_cons]

theorem dispatchLoop_total (ok : String → Nat → Bool) :
    ∀ gs : List (String × List StudentRec),
      (dispatchLoop ok gs).1 + (dispatchLoop ok gs).2.1 = gs.length := by
  intro gs
  induction gs with
  | nil => rfl
  | cons g rest ih =>
    cases g with
    | mk a ts =>
      cases h : (sendEmailWithRetry (ok a) 3).success <;>
        simp [dispatchLoop, h] <;> omega

/-- Claim C8: `sendEmailWithRetry` makes at most 3 attempts; when every
attempt fails it returns failure after 3 attempts (it never throws), having
slept 1 second before attempt 2 and 2 seconds before attempt 3
(`2 ^ (a - 1)` seconds after failed attempt `a`); and in the batch loop each
group is counted independently — the summary counts exactly the groups whose
retry-bounded send succeeded in `sent` and the others in `failed`, every
group is processed, and the two counts exhaust the groups. -/
theorem claim_c8_retry_and_isolation (attemptOk : Nat → Bool)
    (okByAgent : String → Nat → Bool) (groups : List (String × List StudentRec)) :
    (sendEmailWithRetry attemptOk 3).attempts ≤ 3 ∧
      (attemptOk 1 = false → attemptOk 2 = false → attemptOk 3 = false →
        sendEmailWithRetry attemptOk 3 = ⟨false, 3, [1, 2]⟩) ∧
      (dispatchLoop okByAgent groups).1 =
        (groups.filter (fun g => (sendEmailWithRetry (okByAgent g.1) 3).success)).length ∧
      (dispatchLoop okByAgent groups).2.1 =
        (groups.filter (fun g => !(sendEmailWithRetry (okByAgent g.1) 3).success)).length ∧
      (dispatchLoop okByAgent groups).1 + (dispatchLoop okByAgent groups).2.1 =
        groups.length := by
  refine ⟨?_, ?_, dispatchLoop_sent_count _ _, dispatchLoop_failed_count _ _,
    dispatchLoop_total _ _⟩
  · rw [sendEmailWithRetry, retryGo_three]
    split
    · simp
    · split
      · simp
      · split <;> simp
  · intro h1 h2 h3
    rw [sendEmailWithRetry, retryGo_three]
    norm_num [h1, h2, h3]

/-- Witness for claim C8: a transport that always fails yields the failure
outcome after 3 attempts with backoff delays of 1 and 2 seconds. -/
theorem claim_c8_retry_and_isolation_witness :
    (fun _ : Nat => false) 1 = false ∧
      sendEmailWithRetry (fun _ => false) 3 = ⟨false, 3, [1, 2]⟩ :=
  ⟨rfl, (claim_c8_retry_and_isolation (fun _ => false) (fun _ _ => false) []).2.1 rfl rfl rfl⟩

/-! ### The batch run (claims C1 and C9) -/

/-- `modifiedCount` of the bulk `updateMany` (part_003 line 398): documents
matched by the id set whose reminder date actually changes. -/
def cronModifiedCount (t n : String) (store : List StudentRec) : Nat :=
  (store.filter (fun d =>
    ((selectDue t store).map (fun s => s.mongoId)).contains d.mongoId &&
      !(d.reminderDate == some n))).length

theorem cronSent_pos_ne_empty (t : String) (ok : String → Nat → Bool)
    (store : List StudentRec) (h : 0 < cronSent t ok store) :
    (selectDue t store).isEmpty = false := by
  cases hl : selectDue t store with
  | nil =>
    rw [cronSent, hl] at h
    simp [groupByAgent, dispatchLoop] at h
  | cons a l => rfl

/-- Normal form of a configured batch run that found due records: the
response always reports 200 with the dispatch counts; the store is bulk
updated only when some send succeeded and `updateMany` does not error; the
activity log always gains the summary entry, followed by the update / update
failure entry when the advance stage ran. -/
theorem runCron_main (t n : String) (ok : String → Nat → Bool) (ue : Option String)
    (now : Nat) (store : List StudentRec) (acts : List ActivityRec)
    (hne : (selectDue t store).isEmpty = false) :
    runCron t n true ok ue now store acts =
      (⟨200, "Cron job completed.", cronSent t ok store, cronFailed t ok store⟩,
        (if 0 < cronSent t ok store then
          match ue with
          | some _ => store
          | none => store.map (fun d =>
              if ((selectDue t store).map (fun s => s.mongoId)).contains d.mongoId
              then { d with reminderDate := some n } else d)
        else store),
        (acts ++ [logActivity now "CRON_JOB"
            (cronSummary (cronSent t ok store) (cronFailed t ok store))]) ++
          (if 0 < cronSent t ok store then
            match ue with
            | some errMsg =>
              [logActivity (now + 1) "CRON_JOB_FAILED" (cronUpdateFailedDetails errMsg)]
            | none =>
              [logActivity (now + 1) "CRON_JOB_UPDATE"
                (cronUpdateDetails (cronModifiedCount t n store))]
          else [])) := by
  rw [runCron]
  simp only [hne, Bool.false_eq_true, if_false, Bool.not_true, cronSent, cronFailed,
    cronModifiedCount]
  split
  · cases ue <;> simp
  · simp

/-- Claim C9: a batch run that dispatched (some send succeeded) writes one
`CRON_JOB` audit entry whose details carry the sent/failed counts; when the
bulk reminder-date advance fails it writes a second, distinct
`CRON_JOB_FAILED` entry after the summary entry, while the response still
reports HTTP 200 with the dispatch counts — the advance failure does not
retroactively mark sends as failed.  For every advance outcome the log
gains the summary entry. -/
theorem claim_c9_audit_trail (t n : String) (ok : String → Nat → Bool)
    (errMsg : String) (now : Nat) (store : List StudentRec) (acts : List ActivityRec)
    (hsent : 0 < cronSent t ok store) :
    ((runCron t n true ok (some errMsg) now store acts).2.2 =
        acts ++ [logActivity now "CRON_JOB"
            (cronSummary (cronSent t ok store) (cronFailed t ok store)),
          logActivity (now + 1) "CRON_JOB_FAILED" (cronUpdateFailedDetails errMsg)]) ∧
      ((runCron t n true ok (some errMsg) now store acts).1 =
        ⟨200, "Cron job completed.", cronSent t ok store, cronFailed t ok store⟩) ∧
      (∀ ue : Option String, ∃ rest,
        (runCron t n true ok ue now store acts).2.2 =
          acts ++ logActivity now "CRON_JOB"
            (cronSummary (cronSent t ok store) (cronFailed t ok store)) :: rest) ∧
      (logActivity (now + 1) "CRON_JOB_FAILED" (cronUpdateFailedDetails errMsg)).action ≠
        (logActivity now "CRON_JOB"
          (cronSummary (cronSent t ok store) (cronFailed t ok store))).action := by
  have hne := cronSent_pos_ne_empty t ok store hsent
  refine ⟨?_, ?_, ?_, by simp [logActivity]⟩
  · rw [runCron_main t n ok (some errMsg) now store acts hne]
    simp [if_pos hsent]
  · rw [runCron_main t n ok (some errMsg) now store acts hne]
  · intro ue
    rw [runCron_main t n ok ue now store acts hne]
    refine ⟨(if 0 < cronSent t ok store then
        match ue with
        | some errMsg =>
          [logActivity (now + 1) "CRON_JOB_FAILED" (cronUpdateFailedDetails errMsg)]
        | none =>
          [logActivity (now + 1) "CRON_JOB_UPDATE"
            (cronUpdateDetails (cronModifiedCount t n store))]
      else []), ?_⟩
    simp

/-- Witness for claim C9 at a concrete one-record store whose send succeeds
and whose bulk update errors. -/
theorem claim_c9_audit_trail_witness :
    0 < cronSent "2026-10-11" (fun _ _ => true)
        [{ mongoId := 3, id := "C1", initiatedBy := "Cara",
            reminderDate := some "2026-01-01", status := some "Pending" }] ∧
      (runCron "2026-10-11" "2026-10-18" true (fun _ _ => true) (some "db down") 7
          [{ mongoId := 3, id := "C1", initiatedBy := "Cara",
              reminderDate := some "2026-01-01", status := some "Pending" }] []).2.2 =
        [] ++ [logActivity 7 "CRON_JOB"
            (cronSummary
              (cronSent "2026-10-11" (fun _ _ => true)
                [{ mongoId := 3, id := "C1", initiatedBy := "Cara",
                    reminderDate := some "2026-01-01", status := some "Pending" }])
              (cronFailed "2026-10-11" (fun _ _ => true)
                [{ mongoId := 3, id := "C1", initiatedBy := "Cara",
                    reminderDate := some "2026-01-01", status := some "Pending" }])),
          logActivity (7 + 1) "CRON_JOB_FAILED" (cronUpdateFailedDetails "db down")] :=
  ⟨by decide,
    (claim_c9_audit_trail "2026-10-11" "2026-10-18" (fun _ _ => true) "db down" 7
      [{ mongoId := 3, id := "C1", initiatedBy := "Cara",
          reminderDate := some "2026-01-01", status := some "Pending" }] []
      (by decide)).1⟩

/-- Claim C1 counterexample: a batch with one successful group (Alice) and
one group failing all retries (Bob) reports `sent = 1, failed = 1`, yet the
bulk update advances the reminder date of BOTH records, including the one
of Bob whose send failed, refuting the claim that only successfully-notified
records are advanced. -/
theorem claim_c1_counterexample :
    ((runCron "2026-10-11" "2026-10-18" true (fun a _ => a == "Alice") none 50
        [{ mongoId := 1, id := "A1", initiatedBy := "Alice",
            reminderDate := some "2026-10-01", status := some "On hold" },
          { mongoId := 2, id := "B1", initiatedBy := "Bob",
            reminderDate := some "2026-10-02", status := some "Pending" }] []).1 =
        ⟨200, "Cron job completed.", 1, 1⟩) ∧
      ((runCron "2026-10-11" "2026-10-18" true (fun a _ => a == "Alice") none 50
        [{ mongoId := 1, id := "A1", initiatedBy := "Alice",
            reminderDate := some "2026-10-01", status := some "On hold" },
          { mongoId := 2, id := "B1", initiatedBy := "Bob",
            reminderDate := some "2026-10-02", status := some "Pending" }] []).2.1.map
          (fun d => d.reminderDate) =
        [some "2026-10-18", some "2026-10-18"]) ∧
      (sendEmailWithRetry ((fun a _ => a == "Alice") "Bob") 3).success = false := by
  refine ⟨by decide, by decide, by decide⟩

/-- Claim C1 (amended): on any batch with `sent > 0` whose bulk update does
not error, the job sets the reminder date to the job-computed next date for
ALL records selected as due in that batch — including records of groups
whose send failed — via one bulk update keyed by the ids of all selected
records; unselected records are unchanged.  (Storage ids are assumed
distinct, as MongoDB guarantees for `_id`.) -/
theorem claim_c1_advances_all_due (t n : String) (ok : String → Nat → Bool)
    (now : Nat) (store : List StudentRec) (acts : List ActivityRec)
    (hnd : (store.map (fun d => d.mongoId)).Nodup)
    (hsent : 0 < cronSent t ok store) :
    ((runCron t n true ok none now store acts).1.sent = cronSent t ok store) ∧
      (runCron t n true ok none now store acts).2.1 =
        store.map (fun d =>
          if isDue t d then { d with reminderDate := some n } else d) := by
  have hne := cronSent_pos_ne_empty t ok store hsent
  rw [runCron_main t n ok none now store acts hne]
  refine ⟨rfl, ?_⟩
  rw [if_pos hsent]
  apply List.map_congr_left
  intro d hd
  have hiff : (((selectDue t store).map (fun s => s.mongoId)).contains d.mongoId = true) ↔
      isDue t d = true := by
    rw [List.contains_iff_exists_mem_beq]
    constructor
    · rintro ⟨mid, hmid, hbeq⟩
      rcases List.mem_map.mp hmid with ⟨s2, hs2, rfl⟩
      have hs2f : s2 ∈ store.filter (isDue t) := hs2
      rcases List.mem_filter.mp hs2f with ⟨hs2store, hs2due⟩
      have heq : s2 = d :=
        List.inj_on_of_nodup_map hnd hs2store hd (beq_iff_eq.mp hbeq).symm
      exact heq ▸ hs2due
    · intro hdue
      refine ⟨d.mongoId, List.mem_map.mpr ⟨d, ?_, rfl⟩, beq_self_eq_true _⟩
      exact List.mem_filter.mpr ⟨hd, hdue⟩
  cases hdu : isDue t d
  · have hc : (((selectDue t store).map (fun s => s.mongoId)).contains d.mongoId) = false := by
      cases hcc : ((selectDue t store).map (fun s => s.mongoId)).contains d.mongoId
      · rfl
      · rw [hiff.mp hcc] at hdu
        cases hdu
    have hcne : ¬ (((selectDue t store).map (fun s => s.mongoId)).contains d.mongoId = true) := by
      rw [Bool.not_eq_true]
      exact hc
    rw [if_neg hcne, if_neg (by simp)]
  · have hc := hiff.mpr hdu
    rw [if_pos hc, if_pos rfl]

/-- Witness for claim C1 (amended) at a concrete one-record store. -/
theorem claim_c1_advances_all_due_witness :
    (([{ mongoId := 1, id := "A1", initiatedBy := "Alice",
          reminderDate := some "2026-01-01", status := some "On hold" }] :
        List StudentRec).map (fun d => d.mongoId)).Nodup ∧
      0 < cronSent "2026-10-11" (fun _ _ => true)
        [{ mongoId := 1, id := "A1", initiatedBy := "Alice",
            reminderDate := some "2026-01-01", status := some "On hold" }] ∧
      (runCron "2026-10-11" "2026-10-18" true (fun _ _ => true) none 9
          [{ mongoId := 1, id := "A1", initiatedBy := "Alice",
              reminderDate := some "2026-01-01", status := some "On hold" }] []).2.1 =
        ([{ mongoId := 1, id := "A1", initiatedBy := "Alice",
            reminderDate := some "2026-01-01", status := some "On hold" }] :
          List StudentRec).map (fun d =>
            if isDue "2026-10-11" d then { d with reminderDate := some "2026-10-18" }
            else d) :=
  ⟨by decide, by decide,
    (claim_c1_advances_all_due "2026-10-11" "2026-10-18" (fun _ _ => true) 9
      [{ mongoId := 1, id := "A1", initiatedBy := "Alice",
          reminderDate := some "2026-01-01", status := some "On hold" }] []
      (by decide) (by decide)).2⟩

/-! ### Audit log read (claim C10) -/

/-- Claim C10: `GET /api/activities` returns at most 1000 entries, ordered
most recently created first; when the log holds more than 1000 entries the
read returns exactly 1000 of them, so older entries are silently omitted
from the result. -/
theorem claim_c10_activities_read (log : List ActivityRec) :
    (getActivities log).length ≤ 1000 ∧
      List.Pairwise (fun a b => b.createdAt ≤ a.createdAt) (getActivities log) ∧
      (1000 < log.length → (getActivities log).length = 1000) := by
  have hlen : (log.mergeSort (fun a b => Nat.ble b.createdAt a.createdAt)).length =
      log.length := List.length_mergeSort log
  refine ⟨?_, ?_, ?_⟩
  · rw [getActivities, List.length_take, hlen]
    exact min_le_left _ _
  · have hs := @List.sorted_mergeSort ActivityRec
      (fun a b : ActivityRec => Nat.ble b.createdAt a.createdAt)
      (fun a b c hab hbc => Nat.ble_eq.mpr
        (Nat.le_trans (Nat.le_of_ble_eq_true hbc) (Nat.le_of_ble_eq_true hab)))
      (fun a b => by
        rcases Nat.le_total b.createdAt a.createdAt with h | h
        · simp [Nat.ble_eq.mpr h]
        · simp [Nat.ble_eq.mpr h])
      log
    exact (List.Pairwise.sublist (List.take_sublist _ _) hs).imp
      (fun h => Nat.le_of_ble_eq_true h)
  · intro h
    rw [getActivities, List.length_take, hlen]
    exact Nat.min_eq_left (Nat.le_of_lt h)

/-- Witness for claim C10: a log of 1001 entries reads back as exactly 1000
entries. -/
theorem claim_c10_activities_read_witness :
    1000 < (List.replicate 1001 ({} : ActivityRec)).length ∧
      (getActivities (List.replicate 1001 ({} : ActivityRec))).length = 1000 :=
  ⟨by norm_num [List.length_replicate],
    (claim_c10_activities_read _).2.2 (by norm_num [List.length_replicate])⟩

end CMS
